import Mathlib

/-!
Verification of the shift-roster generator (generate_rota.py).

The program builds a CP-SAT model over Boolean variables x[e][d][s]
("employee e works shift s on day d"), with fixed weekly rest patterns,
and extracts a per-employee, per-day code matrix over {"1","2","3","W"}.

We embed the pure parts of the program directly (off patterns, rest
matrix, employee loading with its round-robin starting-shift fallback,
the extraction of codes from a solved assignment, the objective value),
and we embed the constraint system built by `solve` as predicates over a
candidate assignment `x : Nat → Nat → Nat → Bool`.  A schedule returned
by `solve` corresponds to an assignment satisfying all the hard
constraints, since the CP solver only returns OPTIMAL/FEASIBLE solutions
of the posted model.

Dates: the only property of a date the model uses is its weekday
(`dt.weekday()`, 0 = Monday .. 6 = Sunday) and its index in the horizon.
Consecutive dates have consecutive weekdays mod 7, so a horizon is
faithfully represented by the weekday `w0` of the start date together
with the number of days `D`; day `d` has weekday `(w0 + d) % 7`.

The parameter `max_off_pct` is a nonnegative rational; we carry it as an
exact numerator/denominator pair and compute `math.ceil(max_off_pct * E)`
by integer ceiling division, which lemma `capCast_eq_ceil` identifies
with the mathematical ceiling `⌈pct * E⌉` over ℚ.
-/

namespace ShiftRoster

/-- OFF_PATTERNS from the source: seven weekly off patterns A..G, each a
pair of weekdays (Mon=0 .. Sun=6). -/
def OFF_PATTERNS : List (Nat × Nat) :=
  [(5, 6), (6, 0), (0, 1), (1, 2), (2, 3), (3, 4), (4, 5)]

/-- assign_patterns from the source: employee `i` is assigned pattern
`i % len(OFF_PATTERNS)`, i.e. `i % 7`. -/
def assign_patterns (i : Nat) : Nat := i % 7

/-- Pattern pair of employee `e` (total function; `assign_patterns e < 7`
so the default is never used). -/
def patternOf (e : Nat) : Nat × Nat := OFF_PATTERNS.getD (assign_patterns e) (0, 0)

/-- compute_off_matrix cell from the source: employee `e` is off on day
`d` iff the weekday of day `d` equals either member of the assigned
pattern.  `w0` is the weekday of the first day of the horizon. -/
def offCell (w0 e d : Nat) : Bool :=
  ((w0 + d) % 7 == (patternOf e).1) || ((w0 + d) % 7 == (patternOf e).2)

/-- Inputs of `solve`: employee count, weekday of the start date, number
of days, 0-based starting shifts, coverage minimum, and the maximum off
percentage as an exact rational pctNum/pctDen. -/
structure Inputs where
  E : Nat
  w0 : Nat
  D : Nat
  start_shifts : Nat → Nat
  min_per_shift : Nat
  pctNum : Nat
  pctDen : Nat

/-- Weekday of day `d` of the horizon (0 = Monday .. 6 = Sunday). -/
def Inputs.wd (I : Inputs) (d : Nat) : Nat := (I.w0 + d) % 7

/-- Rest matrix entry off[e][d] of the source, as a Bool. -/
def Inputs.off (I : Inputs) (e d : Nat) : Bool := offCell I.w0 e d

/-- Number of employees resting on day `d` (sum over `e` of off[e][d]). -/
def offCount (I : Inputs) (d : Nat) : Nat :=
  (List.range I.E).countP (fun e => I.off e d)

/-- max_off of the source: `math.ceil(max_off_pct * E)`, computed here by
Nat ceiling division on the exact rational. -/
def Inputs.maxOffCap (I : Inputs) : Nat :=
  (I.pctNum * I.E + I.pctDen - 1) / I.pctDen

/-- Number of employees working shift `s` on day `d` under assignment
`x` (the sum the coverage constraint bounds). -/
def countShiftEmp (I : Inputs) (x : Nat → Nat → Nat → Bool) (d s : Nat) : Nat :=
  (List.range I.E).countP (fun e => x e d s)

/-- Number of shift variables of employee `e` set on day `d`
(the sum constrained to 1 on working days). -/
def countTrueShifts (x : Nat → Nat → Nat → Bool) (e d : Nat) : Nat :=
  (List.range 3).countP (fun s => x e d s)

/-- Constraint block 1 of `solve`: on an off day all three shift
variables are 0; on a working day their sum is exactly 1. -/
def dailyAssignmentOK (I : Inputs) (x : Nat → Nat → Nat → Bool) : Prop :=
  ∀ e < I.E, ∀ d < I.D,
    (I.off e d = true → ∀ s < 3, x e d s = false) ∧
    (I.off e d = false → countTrueShifts x e d = 1)

/-- Constraint block 2 of `solve`: on consecutive days that are both
working days, the shift variables agree (the source loops
`d in range(D - 1)`). -/
def continuityOK (I : Inputs) (x : Nat → Nat → Nat → Bool) : Prop :=
  ∀ e < I.E, ∀ d < I.D - 1,
    I.off e d = false → I.off e (d + 1) = false →
    ∀ s < 3, x e d s = x e (d + 1) s

/-- Constraint block 3 of `solve`: the per-day count of resting
employees (a constant of the model) is at most max_off. -/
def restCapOK (I : Inputs) : Prop :=
  ∀ d < I.D, offCount I d ≤ I.maxOffCap

/-- Constraint block 4 of `solve`: every shift has at least
min_per_shift employees every day. -/
def coverageOK (I : Inputs) (x : Nat → Nat → Nat → Bool) : Prop :=
  ∀ d < I.D, ∀ s < 3, I.min_per_shift ≤ countShiftEmp I x d s

/-- All hard constraints posted by `solve`; any schedule the solver
returns satisfies exactly these. -/
def feasible (I : Inputs) (x : Nat → Nat → Nat → Bool) : Prop :=
  dailyAssignmentOK I x ∧ continuityOK I x ∧ restCapOK I ∧ coverageOK I x

instance (I : Inputs) (x : Nat → Nat → Nat → Bool) : Decidable (dailyAssignmentOK I x) := by
  unfold dailyAssignmentOK; infer_instance

instance (I : Inputs) (x : Nat → Nat → Nat → Bool) : Decidable (continuityOK I x) := by
  unfold continuityOK; infer_instance

instance (I : Inputs) : Decidable (restCapOK I) := by
  unfold restCapOK; infer_instance

instance (I : Inputs) (x : Nat → Nat → Nat → Bool) : Decidable (coverageOK I x) := by
  unfold coverageOK; infer_instance

instance (I : Inputs) (x : Nat → Nat → Nat → Bool) : Decidable (feasible I x) := by
  unfold feasible; infer_instance

/-- First shift variable of employee `e` set on day `d`, if any; the
extraction loop of `solve` scans s = 0, 1, 2 and takes the first with
value 1. -/
def workedShift? (x : Nat → Nat → Nat → Bool) (e d : Nat) : Option Nat :=
  (List.range 3).find? (fun s => x e d s)

/-- Extraction of codes[e][d] from the solved assignment: "W" on an off
day; otherwise the 1-based index of the first set shift variable, and
"W" as a defensive fallback if none is set. -/
def extractCode (I : Inputs) (x : Nat → Nat → Nat → Bool) (e d : Nat) : String :=
  if I.off e d then "W"
  else
    match workedShift? x e d with
    | some s => toString (s + 1)
    | none => "W"

/-- Number of employees whose code on day `d` equals `c`. -/
def countCode (I : Inputs) (x : Nat → Nat → Nat → Bool) (d : Nat) (c : String) : Nat :=
  (List.range I.E).countP (fun e => extractCode I x e d == c)

/-!  Employee loading (load_employees). -/

/-- One CSV row as seen by `load_employees`: `emp_id` and
`employee_name` with "" standing for a missing or empty field (both are
falsy in Python), and `starting_shift` possibly absent. -/
structure Row where
  emp_id : String
  employee_name : String
  starting_shift : Option String
deriving DecidableEq

/-- Value of a nonempty all-digit string, `none` otherwise. -/
def digitsVal? (cs : List Char) : Option Nat :=
  if cs.isEmpty then none
  else
    cs.foldl
      (fun acc c =>
        match acc with
        | none => none
        | some n => if c.isDigit then some (n * 10 + (c.toNat - 48)) else none)
      (some 0)

/-- Python `str.strip()`: drop leading and trailing whitespace. -/
def pyStrip (s : String) : List Char :=
  ((s.toList.dropWhile Char.isWhitespace).reverse.dropWhile Char.isWhitespace).reverse

/-- Python `int(...)`: optional sign then decimal digits; raises
(here: `none`) otherwise. -/
def parseInt? (cs : List Char) : Option Int :=
  match cs with
  | [] => none
  | c :: rest =>
    if c = '+' then (digitsVal? rest).map (fun n => (n : Int))
    else if c = '-' then (digitsVal? rest).map (fun n => -(n : Int))
    else (digitsVal? (c :: rest)).map (fun n => (n : Int))

/-- The try-block of `load_employees`: `some s` when
`int((row.get("starting_shift") or "").strip())` succeeds with
`s ∈ {1,2,3}`; `none` when parsing fails or the value is out of range
(both paths raise ValueError and are caught by the same handler). -/
def validShift? (r : Row) : Option Nat :=
  match parseInt? (pyStrip (r.starting_shift.getD "")) with
  | some s => if s = 1 ∨ s = 2 ∨ s = 3 then some s.toNat else none
  | none => none

/-- The starting-shift loop of `load_employees`: valid values are kept
(stored 0-based as `s - 1`); otherwise the round-robin counter `cur`
supplies the value and advances by `cur := 1 + cur % 3`. -/
def assignStartShifts : List Row → Nat → List Nat
  | [], _ => []
  | r :: rs, cur =>
    match validShift? r with
    | some s => (s - 1) :: assignStartShifts rs cur
    | none => (cur - 1) :: assignStartShifts rs (1 + cur % 3)

/-- load_employees from the source: reject a row with a falsy emp_id or
employee_name (first bad row raises), reject an empty list, then
compute the 0-based starting shifts with the round-robin counter
starting at 1. -/
def load_employees (rows : List Row) : Except String (List Row × List Nat) :=
  if rows.any (fun r => r.emp_id == "" || r.employee_name == "") then
    Except.error "employees.csv must contain emp_id and employee_name"
  else if rows.isEmpty then
    Except.error "employees.csv is empty"
  else
    Except.ok (rows, assignStartShifts rows 1)

/-- Number of rows needing the round-robin fallback. -/
def fallbackCount (rows : List Row) : Nat :=
  rows.countP (fun r => (validShift? r).isNone)

/-!  Objective (section D of `solve`), built exactly as in the source:
the AddAbsEquality variables pin each diff variable to the absolute
difference of the two pinned totals, and pen[e][d] = 1 - match[e][d]
with match = x[e][d][target] on working days and match = 1 on off
days. -/

/-- Sum of `f` over `0 .. n-1`. -/
def sumOver (n : Nat) (f : Nat → Nat) : Nat := ((List.range n).map f).sum

/-- Absolute difference of two naturals (value of AddAbsEquality). -/
def natAbsDiff (a b : Nat) : Nat := max a b - min a b

/-- The unordered shift pairs `i < j` enumerated by the source loops. -/
def shiftPairs : List (Nat × Nat) := [(0, 1), (0, 2), (1, 2)]

/-- Sum of all day_diff variables: per day, per shift pair, the absolute
difference of the per-day shift totals. -/
def dayBalance (I : Inputs) (x : Nat → Nat → Nat → Bool) : Nat :=
  sumOver I.D fun d =>
    (shiftPairs.map fun p =>
      natAbsDiff (countShiftEmp I x d p.1) (countShiftEmp I x d p.2)).sum

/-- Days on which employee `e` works shift `s` over the horizon. -/
def empShiftTotal (I : Inputs) (x : Nat → Nat → Nat → Bool) (e s : Nat) : Nat :=
  (List.range I.D).countP (fun d => x e d s)

/-- Sum of all emp_diff variables: per employee, per shift pair, the
absolute difference of the whole-horizon shift totals. -/
def empBalance (I : Inputs) (x : Nat → Nat → Nat → Bool) : Nat :=
  sumOver I.E fun e =>
    (shiftPairs.map fun p =>
      natAbsDiff (empShiftTotal I x e p.1) (empShiftTotal I x e p.2)).sum

/-- Rotation target of employee `e` on day `d`:
`(start_shift + d / 28) % 3` (0-based). -/
def target_s (I : Inputs) (e d : Nat) : Nat := (I.start_shifts e + d / 28) % 3

/-- Rotation penalty variable pen[e][d] as pinned by the source:
`1 - match` where match is `x[e][d][target]` on working days and 1 on
off days. -/
def rotPen (I : Inputs) (x : Nat → Nat → Nat → Bool) (e d : Nat) : Nat :=
  if I.off e d then 0 else 1 - (x e d (target_s I e d)).toNat

/-- Sum of all rotation penalty variables. -/
def rotationTotal (I : Inputs) (x : Nat → Nat → Nat → Bool) : Nat :=
  sumOver I.E fun e => sumOver I.D fun d => rotPen I x e d

/-- The minimized objective of `solve`:
`10 * sum(day_diff_vars) + 5 * sum(emp_diff_vars) + 1 * sum(rotation_mismatch)`. -/
def objective (I : Inputs) (x : Nat → Nat → Nat → Bool) : Nat :=
  10 * dayBalance I x + 5 * empBalance I x + 1 * rotationTotal I x

/-!  Spec-side restatement of the objective, following the words of the
specification, to be compared with the code-side `objective`. -/

/-- Day balance as worded by the spec: absolute difference (over ℤ) of
per-day shift headcounts, summed over days and unordered shift pairs. -/
def specDayBalance (I : Inputs) (x : Nat → Nat → Nat → Bool) : Nat :=
  sumOver I.D fun d =>
    (shiftPairs.map fun p =>
      ((countShiftEmp I x d p.1 : Int) - (countShiftEmp I x d p.2 : Int)).natAbs).sum

/-- Employee balance as worded by the spec: absolute difference (over ℤ)
of per-employee whole-horizon shift-day totals, summed over employees
and unordered shift pairs. -/
def specEmpBalance (I : Inputs) (x : Nat → Nat → Nat → Bool) : Nat :=
  sumOver I.E fun e =>
    (shiftPairs.map fun p =>
      ((empShiftTotal I x e p.1 : Int) - (empShiftTotal I x e p.2 : Int)).natAbs).sum

/-- Rotation mismatch indicator as worded by the spec: 1 exactly when
the day is a working day and the worked shift differs from the target
shift, 0 on rest days.  (On a working day where no shift variable is
set, no worked shift exists at all, so the worked shift certainly is
not the target; this cell is 1, and it is unreachable under the
working-day exclusivity constraint anyway.) -/
def specRotMismatch (I : Inputs) (x : Nat → Nat → Nat → Bool) (e d : Nat) : Nat :=
  if I.off e d then 0
  else
    match workedShift? x e d with
    | some s => if s = target_s I e d then 0 else 1
    | none => 1

/-- Total rotation mismatch as worded by the spec. -/
def specRotationTotal (I : Inputs) (x : Nat → Nat → Nat → Bool) : Nat :=
  sumOver I.E fun e => sumOver I.D fun d => specRotMismatch I x e d

/-- The objective as worded by the spec. -/
def specObjective (I : Inputs) (x : Nat → Nat → Nat → Bool) : Nat :=
  10 * specDayBalance I x + 5 * specEmpBalance I x + 1 * specRotationTotal I x

/-!  Solver driver (lines 216-221 of the source). -/

/-- CP-SAT termination statuses relevant to the driver.  `UNKNOWN` is
what the solver reports when the time budget expires with neither a
feasible solution nor an infeasibility proof. -/
inductive CpStatus where
  | OPTIMAL
  | FEASIBLE
  | INFEASIBLE
  | MODEL_INVALID
  | UNKNOWN
deriving DecidableEq

/-- The driver's status handling: any status outside
{OPTIMAL, FEASIBLE} raises the one generic RuntimeError. -/
def solveOutcome (status : CpStatus) : Except String Unit :=
  match status with
  | CpStatus.OPTIMAL => Except.ok ()
  | CpStatus.FEASIBLE => Except.ok ()
  | _ => Except.error "No feasible rota found (check min_per_shift vs headcount)."

/-- The wall-clock budget set by the driver:
`solver.parameters.max_time_in_seconds = 120.0`. -/
def maxTimeInSeconds : Nat := 120

/-!  Concrete instances used to exercise the theorems. -/

/-- Three employees, horizon of two days starting on a Wednesday,
min_per_shift 1, max_off_pct 3/10.  All three employees work both days
(their patterns are Sat-Sun, Sun-Mon, Mon-Tue). -/
def I3 : Inputs := ⟨3, 2, 2, fun _ => 0, 1, 3, 10⟩

/-- Assignment: employee `e` always works shift `e`. -/
def x3 : Nat → Nat → Nat → Bool := fun e _ s => s == e

/-- Two employees, horizon of 28 days starting on a Monday, starting
shifts 0 and 1, min_per_shift 0, max_off_pct 1. -/
def I8 : Inputs := ⟨2, 0, 28, (fun e => if e = 0 then 0 else 1), 0, 1, 1⟩

/-- Employee 0 always works shift 0, employee 1 always shift 1 (on
working days). -/
def xP : Nat → Nat → Nat → Bool := fun e d s =>
  !(I8.off e d) && (s == (if e == 0 then 0 else 1))

/-- Weekly run shifts of employee 0 in the rotating assignment. -/
def runQ0 : List Nat := [0, 1, 2, 0]

/-- Weekly run shifts of employee 1 in the rotating assignment. -/
def runQ1 : List Nat := [1, 2, 0, 0]

/-- Rotating assignment: each employee works the listed shift during
week `d / 7`; the two employees share a shift in week 3 only. -/
def xQ : Nat → Nat → Nat → Bool := fun e d s =>
  !(I8.off e d) && (s == (if e == 0 then runQ0.getD (d / 7) 0 else runQ1.getD (d / 7) 0))

/-- Both employees always on shift 0 (on working days). -/
def xZ : Nat → Nat → Nat → Bool := fun e d s => !(I8.off e d) && (s == 0)

/-- A row whose starting_shift is present but out of range. -/
def row9 : Row := ⟨"1", "Alice", some "9"⟩

/-- A single valid row with no starting_shift column. -/
def rowsB : List Row := [⟨"2", "Bob", none⟩]

/-- Four rows: valid 2, out-of-range 9, missing, non-numeric. -/
def rows4 : List Row :=
  [⟨"1", "A", some "2"⟩, ⟨"2", "B", some "9"⟩, ⟨"3", "C", none⟩, ⟨"4", "D", some "x"⟩]

/-!  Helper lemmas. -/

/-- List.range 3 unfolded. -/
theorem range3 : List.range 3 = [0, 1, 2] := rfl

/-- When exactly one of the three shift variables is set, the scan of
s = 0, 1, 2 finds the set one, and it is unique. -/
theorem find_of_onehot (p : Nat → Bool) (h : (List.range 3).countP p = 1) :
    ∃ s, s < 3 ∧ (List.range 3).find? p = some s ∧ p s = true ∧
      ∀ t, t < 3 → p t = true → t = s := by
  rw [range3] at h ⊢
  cases h0 : p 0 <;> cases h1 : p 1 <;> cases h2 : p 2 <;>
    simp only [List.countP_cons, List.countP_nil, h0, h1, h2, if_true, if_false,
      cond_true, cond_false] at h <;>
    first
    | omega
    | · refine ⟨0, by omega, ?_, h0, ?_⟩
        · simp [List.find?, h0]
        · intro t ht hpt; interval_cases t <;> simp_all
    | · refine ⟨1, by omega, ?_, h1, ?_⟩
        · simp [List.find?, h0, h1]
        · intro t ht hpt; interval_cases t <;> simp_all
    | · refine ⟨2, by omega, ?_, h2, ?_⟩
        · simp [List.find?, h0, h1, h2]
        · intro t ht hpt; interval_cases t <;> simp_all

/-- The scan of s = 0, 1, 2 returns the same result for predicates that
agree on 0, 1, 2. -/
theorem find3_congr (p q : Nat → Bool) (h0 : p 0 = q 0) (h1 : p 1 = q 1)
    (h2 : p 2 = q 2) : (List.range 3).find? p = (List.range 3).find? q := by
  rw [range3]
  cases hq0 : q 0 <;> cases hq1 : q 1 <;> cases hq2 : q 2 <;>
    simp [List.find?, h0, h1, h2, hq0, hq1, hq2]

/-- On a working day of a one-hot assignment, extraction yields the
1-based code of the unique set shift variable. -/
theorem extract_working (I : Inputs) (x : Nat → Nat → Nat → Bool) (e d : Nat)
    (hoff : I.off e d = false) (h1 : countTrueShifts x e d = 1) :
    ∃ s, s < 3 ∧ x e d s = true ∧ workedShift? x e d = some s ∧
      extractCode I x e d = toString (s + 1) ∧
      ∀ t, t < 3 → x e d t = true → t = s := by
  obtain ⟨s, hs3, hfind, hps, huniq⟩ := find_of_onehot (fun s => x e d s) h1
  refine ⟨s, hs3, hps, hfind, ?_, huniq⟩
  have hni : ¬(I.off e d = true) := by simp [hoff]
  simp only [extractCode, workedShift?]
  rw [if_neg hni, hfind]

/-- Nat ceiling division agrees with the mathematical ceiling of the
rational quotient. -/
theorem capCast_eq_ceil (a d : ℕ) (hd : 0 < d) :
    (((a + d - 1) / d : ℕ) : ℤ) = ⌈(a : ℚ) / (d : ℚ)⌉ := by
  have hdq : (0 : ℚ) < (d : ℚ) := by exact_mod_cast hd
  have hmod := Nat.div_add_mod (a + d - 1) d
  have hlt : (a + d - 1) % d < d := Nat.mod_lt _ hd
  have ha1 : a ≤ d * ((a + d - 1) / d) := by omega
  have ha2 : d * ((a + d - 1) / d) < a + d := by omega
  have hc1 : ((d : ℚ)) * (((a + d - 1) / d : ℕ) : ℚ) < (a : ℚ) + d := by exact_mod_cast ha2
  have hc2 : ((a : ℚ)) ≤ (d : ℚ) * (((a + d - 1) / d : ℕ) : ℚ) := by exact_mod_cast ha1
  have hcast : ((((a + d - 1) / d : ℕ) : ℤ) : ℚ) = (((a + d - 1) / d : ℕ) : ℚ) :=
    Int.cast_natCast _
  symm
  rw [Int.ceil_eq_iff]
  constructor
  · rw [lt_div_iff₀ hdq, hcast]
    nlinarith [hc1]
  · rw [div_le_iff₀ hdq, hcast]
    nlinarith [hc2]

/-- The cap computed by `solve` is the ceiling of
`max_off_pct * E` over ℚ. -/
theorem maxOffCap_eq_ceil (I : Inputs) (hd : 0 < I.pctDen) :
    (I.maxOffCap : ℤ) = ⌈((I.pctNum : ℚ) / (I.pctDen : ℚ)) * (I.E : ℚ)⌉ := by
  have h := capCast_eq_ceil (I.pctNum * I.E) I.pctDen hd
  rw [Inputs.maxOffCap, h]
  congr 1
  push_cast
  ring

/-- natAbsDiff is the natural absolute value of the integer
difference. -/
theorem natAbsDiff_eq (a b : ℕ) : natAbsDiff a b = ((a : ℤ) - (b : ℤ)).natAbs := by
  unfold natAbsDiff
  omega

/-- The rotation target is always a legal shift index. -/
theorem target_s_lt (I : Inputs) (e d : Nat) : target_s I e d < 3 :=
  Nat.mod_lt _ (by omega)

/-- The three code strings of the three shifts. -/
theorem toString_shift (s : Nat) (hs : s < 3) :
    toString (s + 1) = "1" ∨ toString (s + 1) = "2" ∨ toString (s + 1) = "3" := by
  interval_cases s
  · exact Or.inl rfl
  · exact Or.inr (Or.inl rfl)
  · exact Or.inr (Or.inr rfl)

/-- C1: on every schedule returned by `solve`, each cell holds exactly
one of the four codes: it is "W" exactly when the day's weekday is one
of the two weekdays of the employee's rest pattern (pattern index
`e mod 7`), on every other day it is one of "1", "2", "3", and the
extractor's defensive fallback is unreachable: on a working day some
shift variable is always set. -/
theorem codes_partition (I : Inputs) (x : Nat → Nat → Nat → Bool)
    (hf : feasible I x) :
    ∀ e < I.E, ∀ d < I.D,
      (extractCode I x e d = "W" ↔
        (I.wd d = (OFF_PATTERNS.getD (e % 7) (0, 0)).1 ∨
         I.wd d = (OFF_PATTERNS.getD (e % 7) (0, 0)).2)) ∧
      (I.off e d = false →
        (extractCode I x e d = "1" ∨ extractCode I x e d = "2" ∨
         extractCode I x e d = "3") ∧
        (workedShift? x e d).isSome = true) := by
  intro e he d hd
  obtain ⟨h1, _, _, _⟩ := hf
  obtain ⟨hz, ho⟩ := h1 e he d hd
  have hoff_iff : I.off e d = true ↔
      (I.wd d = (OFF_PATTERNS.getD (e % 7) (0, 0)).1 ∨
       I.wd d = (OFF_PATTERNS.getD (e % 7) (0, 0)).2) := by
    simp [Inputs.off, offCell, patternOf, assign_patterns, Inputs.wd]
  constructor
  · rw [← hoff_iff]
    constructor
    · intro hw
      by_cases hoff : I.off e d = true
      · exact hoff
      · exfalso
        have hoff' : I.off e d = false := by simpa using hoff
        obtain ⟨s, hs3, _, _, hcode, _⟩ := extract_working I x e d hoff' (ho hoff')
        rw [hcode] at hw
        interval_cases s <;> exact absurd hw (by decide)
    · intro hoff
      simp [extractCode, hoff]
  · intro hoff'
    obtain ⟨s, hs3, _, hW, hcode, _⟩ := extract_working I x e d hoff' (ho hoff')
    refine ⟨?_, ?_⟩
    · rw [hcode]
      exact toString_shift s hs3
    · rw [hW]
      rfl

/-- C1 witness: the instance I3/x3 satisfies all the constraints, and
the conclusion holds at employee 0, day 0. -/
theorem codes_partition_witness :
    (extractCode I3 x3 0 0 = "W" ↔
      (I3.wd 0 = (OFF_PATTERNS.getD (0 % 7) (0, 0)).1 ∨
       I3.wd 0 = (OFF_PATTERNS.getD (0 % 7) (0, 0)).2)) ∧
    (I3.off 0 0 = false →
      (extractCode I3 x3 0 0 = "1" ∨ extractCode I3 x3 0 0 = "2" ∨
       extractCode I3 x3 0 0 = "3") ∧
      (workedShift? x3 0 0).isSome = true) :=
  codes_partition I3 x3 (by decide) 0 (by decide) 0 (by decide)

/-- C2: on every schedule returned by `solve`, consecutive days that
are both working days for an employee carry the same shift code. -/
theorem shift_constant_across_working_pairs (I : Inputs)
    (x : Nat → Nat → Nat → Bool) (hf : feasible I x) :
    ∀ e < I.E, ∀ d < I.D - 1,
      I.off e d = false → I.off e (d + 1) = false →
      extractCode I x e d = extractCode I x e (d + 1) := by
  intro e he d hd ho1 ho2
  obtain ⟨_, h2, _, _⟩ := hf
  have hagree := h2 e he d hd ho1 ho2
  have hfind : workedShift? x e d = workedShift? x e (d + 1) :=
    find3_congr _ _ (hagree 0 (by omega)) (hagree 1 (by omega))
      (hagree 2 (by omega))
  have h1' : ¬(I.off e d = true) := by simp [ho1]
  have h2' : ¬(I.off e (d + 1) = true) := by simp [ho2]
  simp only [extractCode]
  rw [if_neg h1', if_neg h2', hfind]

/-- C2 witness: at I3/x3 the two days of the horizon are working days
of employee 0 and carry the same code. -/
theorem shift_constant_witness :
    extractCode I3 x3 0 0 = extractCode I3 x3 0 1 :=
  shift_constant_across_working_pairs I3 x3 (by decide) 0 (by decide) 0
    (by decide) (by decide) (by decide)

/-- C3: on every schedule returned by `solve`, every day and every
shift s in {1,2,3} has at least min_per_shift employees whose code is
str(s). -/
theorem coverage_of_codes (I : Inputs) (x : Nat → Nat → Nat → Bool)
    (hf : feasible I x) :
    ∀ d < I.D, ∀ s, 1 ≤ s → s ≤ 3 →
      I.min_per_shift ≤ countCode I x d (toString s) := by
  intro d hd s hs1 hs3
  obtain ⟨h1, _, _, h4⟩ := hf
  have hcov := h4 d hd (s - 1) (by omega)
  have hEq : countCode I x d (toString s) = countShiftEmp I x d (s - 1) := by
    unfold countCode countShiftEmp
    apply List.countP_congr
    intro e he
    simp only [List.mem_range] at he
    obtain ⟨hz, ho⟩ := h1 e he d hd
    by_cases hoff : I.off e d = true
    · have hxf := hz hoff (s - 1) (by omega)
      have hcW : extractCode I x e d = "W" := by simp [extractCode, hoff]
      rw [hcW, hxf]
      constructor
      · intro hb
        exfalso
        interval_cases s <;> exact absurd hb (by decide)
      · intro hb
        exact absurd hb (by decide)
    · have hoff' : I.off e d = false := by simpa using hoff
      obtain ⟨j, hj3, hxj, _, hcode, huniq⟩ := extract_working I x e d hoff' (ho hoff')
      rw [hcode]
      constructor
      · intro hb
        have h' : toString (j + 1) = toString s := eq_of_beq hb
        have heq : j = s - 1 := by
          interval_cases s <;> interval_cases j <;>
            first
            | rfl
            | exact absurd h' (by decide)
        rw [← heq]
        exact hxj
      · intro hxs
        have hji : s - 1 = j := huniq (s - 1) (by omega) hxs
        have hj : j + 1 = s := by omega
        rw [hj]
        exact beq_self_eq_true _
  rw [hEq]
  exact hcov

/-- C3 witness: at I3/x3, day 0, shift 1 is staffed by at least
min_per_shift = 1 employee. -/
theorem coverage_of_codes_witness :
    I3.min_per_shift ≤ countCode I3 x3 0 (toString 1) :=
  coverage_of_codes I3 x3 (by decide) 0 (by decide) 1 (by decide) (by decide)

/-- C9: on every schedule returned by `solve`, the number of "W" codes
on any day is at most the ceiling of max_off_pct times the number of
employees. -/
theorem rest_cap_of_codes (I : Inputs) (x : Nat → Nat → Nat → Bool)
    (hf : feasible I x) (hden : 0 < I.pctDen) :
    ∀ d < I.D,
      (countCode I x d "W" : ℤ) ≤
        ⌈((I.pctNum : ℚ) / (I.pctDen : ℚ)) * (I.E : ℚ)⌉ := by
  intro d hd
  obtain ⟨h1, _, h3, _⟩ := hf
  have hEq : countCode I x d "W" = offCount I d := by
    unfold countCode offCount
    apply List.countP_congr
    intro e he
    simp only [List.mem_range] at he
    obtain ⟨hz, ho⟩ := h1 e he d hd
    by_cases hoff : I.off e d = true
    · have hcW : extractCode I x e d = "W" := by simp [extractCode, hoff]
      rw [hcW, hoff]
      simp
    · have hoff' : I.off e d = false := by simpa using hoff
      obtain ⟨s, hs3, _, _, hcode, _⟩ := extract_working I x e d hoff' (ho hoff')
      rw [hcode, hoff']
      interval_cases s <;> decide
  rw [hEq, ← maxOffCap_eq_ceil I hden]
  exact_mod_cast h3 d hd

/-- C9 witness: at I3/x3, day 0, the number of resting employees (0) is
below the cap ceil(3/10 * 3) = 1. -/
theorem rest_cap_of_codes_witness :
    (countCode I3 x3 0 "W" : ℤ) ≤
      ⌈((I3.pctNum : ℚ) / (I3.pctDen : ℚ)) * (I3.E : ℚ)⌉ :=
  rest_cap_of_codes I3 x3 (by decide) (by decide) 0 (by decide)

/-- C4 counterexample: proven infeasibility (INFEASIBLE) and budget
expiry without a solution (UNKNOWN) produce the identical generic
error, so the two failure modes are not distinguishable by the
caller. -/
theorem solver_failures_indistinguishable :
    solveOutcome CpStatus.INFEASIBLE = solveOutcome CpStatus.UNKNOWN ∧
    solveOutcome CpStatus.INFEASIBLE =
      Except.error "No feasible rota found (check min_per_shift vs headcount)." :=
  ⟨rfl, rfl⟩

/-- C4 amended: the driver runs under a 120-second budget and raises
one single generic RuntimeError for every status outside
{OPTIMAL, FEASIBLE} — proven infeasibility and timeout without proof
included — so the caller cannot distinguish the two failure modes. -/
theorem solver_failure_single_error (st : CpStatus)
    (h1 : st ≠ CpStatus.OPTIMAL) (h2 : st ≠ CpStatus.FEASIBLE) :
    solveOutcome st =
      Except.error "No feasible rota found (check min_per_shift vs headcount)." ∧
    maxTimeInSeconds = 120 := by
  cases st
  · exact absurd rfl h1
  · exact absurd rfl h2
  · exact ⟨rfl, rfl⟩
  · exact ⟨rfl, rfl⟩
  · exact ⟨rfl, rfl⟩

/-- C4 witness: the amended statement applied at the INFEASIBLE
status. -/
theorem solver_failure_single_error_witness :
    solveOutcome CpStatus.INFEASIBLE =
      Except.error "No feasible rota found (check min_per_shift vs headcount)." ∧
    maxTimeInSeconds = 120 :=
  solver_failure_single_error CpStatus.INFEASIBLE (by decide) (by decide)

/-- C5 counterexample: a list whose only row has starting_shift "9"
(present but out of range) loads successfully — the fallback assigns
shift 1 (stored 0-based as 0) — rather than raising a validation
error. -/
theorem invalid_starting_shift_not_fatal :
    load_employees [row9] = Except.ok ([row9], [0]) := rfl

/-- C5 amended: an empty list and a row with a falsy emp_id or
employee_name are fatal before model construction, with the source's
descriptive messages; a present but malformed or out-of-range
starting_shift is not fatal — loading succeeds whenever the list is
nonempty and every row has truthy required fields, the invalid
starting_shift being silently replaced round-robin. -/
theorem load_employees_validation (rows : List Row) :
    (rows = [] → load_employees rows = Except.error "employees.csv is empty") ∧
    ((∃ r ∈ rows, r.emp_id = "" ∨ r.employee_name = "") →
      load_employees rows =
        Except.error "employees.csv must contain emp_id and employee_name") ∧
    (rows ≠ [] → (∀ r ∈ rows, r.emp_id ≠ "" ∧ r.employee_name ≠ "") →
      load_employees rows = Except.ok (rows, assignStartShifts rows 1)) := by
  refine ⟨?_, ?_, ?_⟩
  · intro h
    subst h
    rfl
  · rintro ⟨r, hr, hbad⟩
    have hany : rows.any (fun r => r.emp_id == "" || r.employee_name == "") = true := by
      rw [List.any_eq_true]
      refine ⟨r, hr, ?_⟩
      rcases hbad with h | h <;> simp [h]
    simp [load_employees, hany]
  · intro hne hall
    have hany : rows.any (fun r => r.emp_id == "" || r.employee_name == "") = false := by
      cases hA : rows.any (fun r => r.emp_id == "" || r.employee_name == "") with
      | false => rfl
      | true =>
        obtain ⟨r, hr, hb⟩ := List.any_eq_true.mp hA
        obtain ⟨hid, hname⟩ := hall r hr
        simp only [Bool.or_eq_true, beq_iff_eq] at hb
        rcases hb with h | h
        · exact absurd h hid
        · exact absurd h hname
    have hmt : rows.isEmpty = false := by
      cases rows with
      | nil => exact absurd rfl hne
      | cons a l => rfl
    simp [load_employees, hany, hmt]

/-- C5 witness: the amended statement applied to a nonempty valid list
with a missing starting_shift column. -/
theorem load_employees_validation_witness :
    load_employees rowsB = Except.ok (rowsB, assignStartShifts rowsB 1) :=
  (load_employees_validation rowsB).2.2 (by decide) (by decide)

/-- The starting-shift loop emits one value per row. -/
theorem assignStartShifts_length (rows : List Row) (cur : Nat) :
    (assignStartShifts rows cur).length = rows.length := by
  induction rows generalizing cur with
  | nil => rfl
  | cons r rs ih =>
    unfold assignStartShifts
    cases validShift? r <;> simp [ih]

/-- Characterization of the starting-shift loop after `k` fallbacks
have been consumed (the counter then holds `k % 3 + 1`): a valid row
keeps its own value, a fallback row receives the cycle position given
by the number of earlier fallback rows. -/
theorem assignStartShifts_get (rows : List Row) (k i : Nat) (r : Row)
    (hik : rows[i]? = some r) :
    (assignStartShifts rows (k % 3 + 1))[i]? =
      some (match validShift? r with
            | some s => s - 1
            | none => (k + fallbackCount (List.take i rows)) % 3) := by
  induction rows generalizing k i with
  | nil => simp at hik
  | cons hd tl ih =>
    cases i with
    | zero =>
      have hr : hd = r := by simpa using hik
      subst hr
      unfold assignStartShifts
      cases hv : validShift? hd with
      | some s => simp [hv, fallbackCount]
      | none =>
        simp [hv, fallbackCount]
    | succ j =>
      have hjk : tl[j]? = some r := by simpa using hik
      unfold assignStartShifts
      cases hv : validShift? hd with
      | some s =>
        have hrec := ih k j hjk
        simp only [List.getElem?_cons_succ]
        rw [hrec]
        cases hvr : validShift? r with
        | some t => rfl
        | none =>
          simp [List.take_succ_cons, fallbackCount, List.countP_cons, hv]
      | none =>
        have hcur : 1 + (k % 3 + 1) % 3 = (k + 1) % 3 + 1 := by omega
        have hrec := ih (k + 1) j hjk
        simp only [List.getElem?_cons_succ]
        rw [hcur, hrec]
        have harg : fallbackCount (List.take (j + 1) (hd :: tl)) =
            fallbackCount (List.take j tl) + 1 := by
          simp [List.take_succ_cons, fallbackCount, List.countP_cons, hv]
        cases hvr : validShift? r with
        | some t => rfl
        | none =>
          rw [harg]
          dsimp only
          have hswap : k + 1 + fallbackCount (List.take j tl) =
              k + (fallbackCount (List.take j tl) + 1) := by omega
          rw [hswap]

/-- C6: whenever `load_employees` succeeds, the employee list is
returned unchanged and the starting shifts satisfy: a row with a valid
starting_shift keeps its own value (stored 0-based as s - 1) and does
not advance the fallback cycle; a row whose starting_shift is missing,
non-numeric or outside {1,2,3} receives the round-robin value
determined by the number of earlier fallback rows — 0-based cycle
0,1,2,0,... i.e. shifts 1,2,3,1,... in encounter order — and no
validation failure is raised for out-of-range values. -/
theorem round_robin_fallback (rows : List Row) (emps : List Row)
    (shifts : List Nat)
    (h : load_employees rows = Except.ok (emps, shifts)) :
    emps = rows ∧ shifts.length = rows.length ∧
    ∀ i r, rows[i]? = some r →
      shifts[i]? =
        some (match validShift? r with
              | some s => s - 1
              | none => (fallbackCount (List.take i rows)) % 3) := by
  unfold load_employees at h
  by_cases h1 : rows.any (fun r => r.emp_id == "" || r.employee_name == "") = true
  · rw [if_pos h1] at h
    exact absurd h (by simp)
  · rw [if_neg h1] at h
    by_cases h2 : rows.isEmpty = true
    · rw [if_pos h2] at h
      exact absurd h (by simp)
    · rw [if_neg h2] at h
      obtain ⟨he, hs⟩ := Prod.mk.inj (Except.ok.inj h)
      refine ⟨he.symm, ?_, ?_⟩
      · rw [← hs]
        exact assignStartShifts_length rows 1
      · intro i r hir
        rw [← hs]
        have := assignStartShifts_get rows 0 i r hir
        simpa using this

/-- C6 witness: on the four-row list (valid "2", out-of-range "9",
missing, non-numeric "x") the loop yields 1 for the valid row and the
fallback cycle 0, 1, 2 for the other three. -/
theorem round_robin_fallback_witness :
    (assignStartShifts rows4 1)[1]? = some 0 ∧
    (assignStartShifts rows4 1)[3]? = some 2 := by
  have h := round_robin_fallback rows4 rows4 (assignStartShifts rows4 1) rfl
  constructor
  · have h1 := h.2.2 1 ⟨"2", "B", some "9"⟩ rfl
    exact h1.trans (by rfl)
  · have h3 := h.2.2 3 ⟨"4", "D", some "x"⟩ rfl
    exact h3.trans (by rfl)

/-- Congruence of bounded sums. -/
theorem sumOver_congr (n : Nat) (f g : Nat → Nat) (h : ∀ i < n, f i = g i) :
    sumOver n f = sumOver n g := by
  unfold sumOver
  congr 1
  apply List.map_congr_left
  intro a ha
  exact h a (List.mem_range.mp ha)

/-- C7: under the working-day exclusivity constraint, the minimized
objective equals exactly 10 times the spec's day-balance total plus 5
times the spec's employee-balance total plus 1 times the spec's
rotation-mismatch total, whose indicator is 1 exactly when the day is a
working day and the worked shift differs from the target
`(starting_shift + d / 28) % 3`, and 0 on every rest day. -/
theorem objective_matches_spec (I : Inputs) (x : Nat → Nat → Nat → Bool)
    (h1 : dailyAssignmentOK I x) :
    objective I x =
      10 * specDayBalance I x + 5 * specEmpBalance I x +
        1 * specRotationTotal I x := by
  have hday : dayBalance I x = specDayBalance I x := by
    unfold dayBalance specDayBalance
    apply sumOver_congr
    intro d _
    congr 1
    apply List.map_congr_left
    intro p _
    exact natAbsDiff_eq _ _
  have hemp : empBalance I x = specEmpBalance I x := by
    unfold empBalance specEmpBalance
    apply sumOver_congr
    intro e _
    congr 1
    apply List.map_congr_left
    intro p _
    exact natAbsDiff_eq _ _
  have hrot : rotationTotal I x = specRotationTotal I x := by
    unfold rotationTotal specRotationTotal
    apply sumOver_congr
    intro e he
    apply sumOver_congr
    intro d hd
    obtain ⟨hz, ho⟩ := h1 e he d hd
    by_cases hoff : I.off e d = true
    · simp [rotPen, specRotMismatch, hoff]
    · have hoff' : I.off e d = false := by simpa using hoff
      obtain ⟨s, hs3, hxs, hW, _, huniq⟩ := extract_working I x e d hoff' (ho hoff')
      by_cases ht : x e d (target_s I e d) = true
      · have hts : target_s I e d = s := huniq _ (target_s_lt I e d) ht
        simp [rotPen, specRotMismatch, hoff', hW, ht, hts, hxs]
      · have hxf : x e d (target_s I e d) = false := by simpa using ht
        have hne : s ≠ target_s I e d := fun hEq => ht (hEq ▸ hxs)
        simp [rotPen, specRotMismatch, hoff', hW, hxf, hne]
  unfold objective
  rw [hday, hemp, hrot]

/-- C7 witness: the refinement applied at the concrete instance
I3/x3. -/
theorem objective_matches_spec_witness :
    objective I3 x3 =
      10 * specDayBalance I3 x3 + 5 * specEmpBalance I3 x3 +
        1 * specRotationTotal I3 x3 :=
  objective_matches_spec I3 x3 (by decide)

/-- C8 counterexample: two assignments feasible for the same inputs
(I8: two employees, 28 days, min_per_shift 0, max_off_pct 1) where xP
has the strictly smaller day-balance total (48 < 56) yet the strictly
larger composed objective (880 > 685): the 10/5/1 weights do not make
the smaller day-balance total win regardless of the other two
totals. -/
theorem weights_not_lexicographic :
    feasible I8 xP ∧ feasible I8 xQ ∧
    dayBalance I8 xP < dayBalance I8 xQ ∧
    objective I8 xQ < objective I8 xP :=
  ⟨by decide, by decide, by decide, by decide⟩

/-- C8 amended: the weighted 10/5/1 objective prefers the smaller
day-balance total only when the weighted lower-priority terms do not
overcompensate; in particular, strictly smaller day-balance with
5 × employee-balance + rotation no larger gives a strictly smaller
objective, and equal day-balance with strictly smaller
employee-balance and rotation no larger gives a strictly smaller
objective.  The unconditional lexicographic dominance claimed does not
hold. -/
theorem weights_dominance_conditional (I : Inputs)
    (x y : Nat → Nat → Nat → Bool)
    (h : (dayBalance I x < dayBalance I y ∧
          5 * empBalance I x + rotationTotal I x ≤
            5 * empBalance I y + rotationTotal I y) ∨
         (dayBalance I x = dayBalance I y ∧
          empBalance I x < empBalance I y ∧
          rotationTotal I x ≤ rotationTotal I y)) :
    objective I x < objective I y := by
  unfold objective
  rcases h with ⟨hA, hBC⟩ | ⟨hA, hB, hC⟩ <;> omega

/-- C8 witness: the conditional dominance applied to xP versus the
all-shift-0 assignment xZ over I8. -/
theorem weights_dominance_witness : objective I8 xP < objective I8 xZ :=
  weights_dominance_conditional I8 xP xZ (Or.inl ⟨by decide, by decide⟩)

/-- C10: with nine employees and max_off_pct = 3/10, on any day whose
weekday is Sunday four employees rest (teams 0 and 1 hold two
employees each and both their patterns contain Sunday) while the cap
is ceil(27/10) = 3; the rest-cap constraint over fixed constants is
therefore unsatisfiable, no assignment is feasible for any horizon
containing a Sunday, and the driver can only surface this as the
generic "No feasible rota found" error — there is no eager pre-solve
check. -/
theorem nine_employees_sunday_infeasible (w0 D m : Nat) (ss : Nat → Nat)
    (d : Nat) (hd : d < D) (hsun : (w0 + d) % 7 = 6) :
    offCount ⟨9, w0, D, ss, m, 3, 10⟩ d = 4 ∧
    Inputs.maxOffCap ⟨9, w0, D, ss, m, 3, 10⟩ = 3 ∧
    ¬ restCapOK ⟨9, w0, D, ss, m, 3, 10⟩ ∧
    (∀ x, ¬ feasible ⟨9, w0, D, ss, m, 3, 10⟩ x) ∧
    solveOutcome CpStatus.INFEASIBLE =
      Except.error "No feasible rota found (check min_per_shift vs headcount)." := by
  have hoffc : offCount ⟨9, w0, D, ss, m, 3, 10⟩ d = 4 := by
    simp only [offCount, Inputs.off, offCell, hsun]
    decide
  have hcap : Inputs.maxOffCap ⟨9, w0, D, ss, m, 3, 10⟩ = 3 := by
    norm_num [Inputs.maxOffCap]
  have hnr : ¬ restCapOK ⟨9, w0, D, ss, m, 3, 10⟩ := by
    intro hrc
    have hle := hrc d hd
    rw [hoffc, hcap] at hle
    omega
  exact ⟨hoffc, hcap, hnr, fun x hf => hnr hf.2.2.1, rfl⟩

/-- C10 witness: a one-week horizon starting on a Monday; its day 6 is
a Sunday. -/
theorem nine_employees_sunday_infeasible_witness :
    offCount ⟨9, 0, 7, (fun _ => 0), 1, 3, 10⟩ 6 = 4 ∧
    Inputs.maxOffCap ⟨9, 0, 7, (fun _ => 0), 1, 3, 10⟩ = 3 ∧
    ¬ restCapOK ⟨9, 0, 7, (fun _ => 0), 1, 3, 10⟩ ∧
    (∀ x, ¬ feasible ⟨9, 0, 7, (fun _ => 0), 1, 3, 10⟩ x) ∧
    solveOutcome CpStatus.INFEASIBLE =
      Except.error "No feasible rota found (check min_per_shift vs headcount)." :=
  nine_employees_sunday_infeasible 0 7 1 (fun _ => 0) 6 (by decide) (by decide)

end ShiftRoster
